import Mathlib

/-!
Verification development for the static-site assembly pipeline of the
ser-livre-psicologia repository (Astro migration).  The repository ships the
Astro configuration (`astro.config.mjs`) together with the migration plan
(`specs/PLAN.md`) and study (`specs/STUDY.md`); the pipeline itself (asset
registry, image transcoder, typeface packager, component composer, static
emission, runtime elision check) is described by those documents and by the
specification.  The definitions below are a shallow embedding of that
pipeline; each definition that embeds a component whose implementation is not
present in the repository is marked `Modelled from the spec:`.
-/

namespace SerLivre

/-- Bytes of a file are modelled as a list of naturals (one per byte). -/
abbrev Bytes := List Nat

/-- Modelled from the spec: the content hash ("digest of a file's bytes, used
as canonical identity and as the output filename component").  A concrete
deterministic digest over the byte list, reduced modulo 2^64. -/
def contentHash (b : Bytes) : Nat :=
  b.foldl (fun h x => (h * 31 + x) % 2 ^ 64) 5381

/-! ## Data model -/

/-- The fixed enumeration of 8 section kinds (PLAN.md section 6: Header,
HeroSection, ForWhomSection, AboutSection, ApproachSection,
HowItWorksSection, CtaSection, Footer). -/
inductive SectionKind where
  | header
  | hero
  | forWhom
  | about
  | approach
  | howItWorks
  | cta
  | footer
deriving DecidableEq, Repr

/-- Modelled from the spec: a SectionNode carries a kind from the fixed
8-kind enumeration, its props, its referenced assets, and the per-section
interactivity flag. -/
structure SectionNode where
  kind : SectionKind
  props : List (String × String)
  referencedAssets : List String
  interactivityEnabled : Bool
deriving DecidableEq, Repr

/-- Target image output formats (modern compressed plus fallback; PLAN.md
section 9 checks WebP/AVIF output). -/
inductive ImgFormat where
  | webp
  | avif
  | png
  | jpeg
deriving DecidableEq, Repr

/-- A source raster image: its path, bytes and native pixel dimensions. -/
structure SourceImage where
  path : String
  bytes : Bytes
  nativeWidth : Nat
  nativeHeight : Nat
deriving DecidableEq, Repr

/-- Modelled from the spec: ImageVariant carries the dedup key
(parentHash, width, format) together with the emitted pixel dimensions,
output path and content hash of the encoded bytes. -/
structure ImageVariant where
  parentHash : Nat
  width : Nat
  format : ImgFormat
  emittedWidth : Nat
  emittedHeight : Nat
  outputPath : String
  contentHash : Nat
deriving DecidableEq, Repr

/-- Font style axis of a face source (normal or italic). -/
inductive FontStyle where
  | normal
  | italic
deriving DecidableEq, Repr

/-- One variable-font source file of a family: its weight-axis range, style
and bytes (STUDY.md section 5: a weight-axis variable file, possibly with a
separate italic file). -/
structure FontSource where
  axisLo : Nat
  axisHi : Nat
  style : FontStyle
  fileBytes : Bytes
deriving DecidableEq, Repr

/-- A declared font family with its source files. -/
structure FontFamilySpec where
  family : String
  sources : List FontSource
deriving DecidableEq, Repr

/-- Modelled from the spec: FontFace is
one emitted face declaration per family source. -/
structure FontFace where
  family : String
  weightAxisLo : Nat
  weightAxisHi : Nat
  style : FontStyle
  sourceFileHash : Nat
  outputPath : String
deriving DecidableEq, Repr

/-- The build error taxonomy of the spec (section 7). -/
inductive BuildError where
  | notFound
  | unsupportedKind
  | missingAxis
  | unresolvedReference
  | unexpectedRuntime
  | nonDeterministicOutput
deriving DecidableEq, Repr

/-! ## Image Transcoder -/

/-- Modelled from the spec: emitted width of a variant.  Never upscale: the
requested width is clamped to the native width of the source. -/
def variantWidth (img : SourceImage) (w : Nat) : Nat :=
  min w img.nativeWidth

/-- Modelled from the spec: emitted height, preserving aspect ratio; when the
request does not downscale, the unmodified original height is kept. -/
def variantHeight (img : SourceImage) (w : Nat) : Nat :=
  if img.nativeWidth ≤ w then img.nativeHeight
  else w * img.nativeHeight / img.nativeWidth

/-- File extension of an image output format. -/
def ImgFormat.ext : ImgFormat → String
  | .webp => ".webp"
  | .avif => ".avif"
  | .png => ".png"
  | .jpeg => ".jpeg"

/-- Modelled from the spec: the encoded bytes of a variant, a deterministic
function of the source bytes, emitted dimensions and format. -/
def encodeImage (img : SourceImage) (w : Nat) (fmt : ImgFormat) : Bytes :=
  (match fmt with
    | .webp => 1
    | .avif => 2
    | .png => 3
    | .jpeg => 4) :: variantWidth img w :: variantHeight img w :: img.bytes

/-- Modelled from the spec: produce one ImageVariant for a requested
(source, width, format); the variant key keeps the requested width, the
emitted dimensions respect the no-upscaling policy. -/
def transcode (img : SourceImage) (w : Nat) (fmt : ImgFormat) : ImageVariant :=
  { parentHash := contentHash img.bytes
    width := w
    format := fmt
    emittedWidth := variantWidth img w
    emittedHeight := variantHeight img w
    outputPath :=
      "/_astro/img-" ++ toString (contentHash img.bytes) ++ "-" ++ toString w
        ++ fmt.ext
    contentHash := contentHash (encodeImage img w fmt) }

/-! ## Typeface Packager -/

/-- Modelled from the spec: one face declaration per family source; a family
with a weight-axis source and a separate italic source therefore emits two
distinct entries, never merged. -/
def mkFace (family : String) (s : FontSource) : FontFace :=
  { family := family
    weightAxisLo := s.axisLo
    weightAxisHi := s.axisHi
    style := s.style
    sourceFileHash := contentHash s.fileBytes
    outputPath :=
      "/_astro/font-" ++ family ++ "-" ++ toString (contentHash s.fileBytes)
        ++ ".woff2" }

/-- Modelled from the spec: pack one family into its face declarations. -/
def packFamily (f : FontFamilySpec) : List FontFace :=
  f.sources.map (mkFace f.family)

/-- Modelled from the spec: the Typeface Packager output over all declared
families. -/
def packFonts (fams : List FontFamilySpec) : List FontFace :=
  fams.flatMap packFamily

/-! ## Content-addressed deduplication -/

/-- Worker of keyed deduplication: drop every element whose key is already
in the accumulated seen-key list, keep first occurrences. -/
def dedupByAux {α β : Type} [DecidableEq β] (key : α → β) (seen : List β) :
    List α → List α
  | [] => []
  | a :: as =>
    if key a ∈ seen then dedupByAux key seen as
    else a :: dedupByAux key (key a :: seen) as

/-- Keep the first element for each key and drop every later element whose
key already occurred (Modelled from the spec: registry identity "is the hash,
not the path", so deduplication is keyed, not structural). -/
def dedupBy {α β : Type} [DecidableEq β] (key : α → β) (l : List α) : List α :=
  dedupByAux key [] l

theorem dedupByAux_key_not_seen {α β : Type} [DecidableEq β] (key : α → β) :
    ∀ (l : List α) (seen : List β) (b : β),
      b ∈ (dedupByAux key seen l).map key → b ∉ seen ∧ b ∈ l.map key := by
  intro l
  induction l with
  | nil => intro seen b hb; simp [dedupByAux] at hb
  | cons a as ih =>
    intro seen b hb
    rw [dedupByAux] at hb
    by_cases ha : key a ∈ seen
    · rw [if_pos ha] at hb
      rcases ih seen b hb with ⟨h1, h2⟩
      exact ⟨h1, by simp [h2]⟩
    · rw [if_neg ha] at hb
      simp only [List.map_cons, List.mem_cons] at hb
      rcases hb with hb | hb
      · exact ⟨hb ▸ ha, by simp [hb]⟩
      · rcases ih (key a :: seen) b hb with ⟨h1, h2⟩
        refine ⟨fun hc => h1 (List.mem_cons_of_mem _ hc), by simp [h2]⟩

theorem dedupBy_keys_nodup {α β : Type} [DecidableEq β] (key : α → β)
    (l : List α) : ((dedupBy key l).map key).Nodup := by
  suffices h : ∀ (l : List α) (seen : List β),
      ((dedupByAux key seen l).map key).Nodup from h l []
  intro l
  induction l with
  | nil => intro seen; simp [dedupByAux]
  | cons a as ih =>
    intro seen
    rw [dedupByAux]
    by_cases ha : key a ∈ seen
    · rw [if_pos ha]; exact ih seen
    · rw [if_neg ha]
      simp only [List.map_cons, List.nodup_cons]
      refine ⟨fun hc => ?_, ih (key a :: seen)⟩
      exact (dedupByAux_key_not_seen key as (key a :: seen) (key a) hc).1
        (List.mem_cons_self _ _)

theorem card_insert_erase {β : Type} [DecidableEq β] (s : Finset β) (x : β) :
    (insert x s).card = 1 + (s.erase x).card := by
  have h1 : insert x s = insert x (s.erase x) := by
    ext b
    by_cases hb : b = x <;> simp [hb]
  rw [h1, Finset.card_insert_of_not_mem (Finset.not_mem_erase x s)]
  omega

theorem dedupByAux_length {α β : Type} [DecidableEq β] (key : α → β) :
    ∀ (l : List α) (seen : List β),
      (dedupByAux key seen l).length
        = ((l.map key).toFinset \ seen.toFinset).card := by
  intro l
  induction l with
  | nil => intro seen; simp [dedupByAux]
  | cons a as ih =>
    intro seen
    rw [dedupByAux]
    by_cases ha : key a ∈ seen
    · rw [if_pos ha, ih seen]
      have : ((a :: as).map key).toFinset \ seen.toFinset
          = (as.map key).toFinset \ seen.toFinset := by
        ext b
        by_cases hb : b = key a <;> simp [hb, ha]
      rw [this]
    · rw [if_neg ha]
      simp only [List.length_cons, ih (key a :: seen)]
      have hsplit : ((a :: as).map key).toFinset \ seen.toFinset
          = insert (key a) ((as.map key).toFinset \ seen.toFinset) := by
        ext b
        by_cases hb : b = key a <;> simp [hb, ha]
      rw [hsplit, card_insert_erase, ← Finset.sdiff_insert]
      have : (as.map key).toFinset \ insert (key a) seen.toFinset
          = (as.map key).toFinset \ (key a :: seen).toFinset := by
        simp
      rw [this]
      omega

theorem dedupBy_length {α β : Type} [DecidableEq β] (key : α → β)
    (l : List α) : (dedupBy key l).length = ((l.map key).toFinset).card := by
  rw [dedupBy, dedupByAux_length key l []]
  simp

/-! ## Image usage deduplication -/

/-- Modelled from the spec: the global dedup key of an image usage site, the
(parentHash, width) pair; crossing with the target format set gives the
(parentHash, width, format) triple of the invariant. -/
def usageKey (u : SourceImage × Nat) : Nat × Nat :=
  (contentHash u.1.bytes, u.2)

/-- Modelled from the spec: the Image Transcoder output over all usage
sites: usages are deduplicated globally by (parentHash, width) and each
surviving request is encoded once per target format. -/
def emitVariants (usages : List (SourceImage × Nat)) (formats : List ImgFormat) :
    List ImageVariant :=
  (dedupBy usageKey usages).flatMap
    (fun u => formats.map (fun fmt => transcode u.1 u.2 fmt))

/-- The identity triple of an emitted variant. -/
def tripleKey (v : ImageVariant) : Nat × Nat × ImgFormat :=
  (v.parentHash, v.width, v.format)

/-! ## Component Composer -/

/-- Modelled from the spec: whether a section kind renders inside the main
content landmark of the page.  Header and Footer render as the banner and
footer shell around the main landmark (PLAN.md section 6: Header and Footer
sit outside the main element); every other kind is main-landmark content. -/
def isLandmark : SectionKind → Bool
  | .header => false
  | .footer => false
  | _ => true

/-- Modelled from the spec: the stable html id of each section kind; the
first main-content section carries the skip-link target id
(PLAN.md: the skip link points at the conteudo-principal id). -/
def sectionId : SectionKind → String
  | .header => "secao-header"
  | .hero => "conteudo-principal"
  | .forWhom => "secao-para-quem"
  | .about => "secao-sobre"
  | .approach => "secao-abordagem"
  | .howItWorks => "secao-como-funciona"
  | .cta => "secao-cta"
  | .footer => "secao-rodape"

/-- An emitted script bundle (name, bytes, and whether its bytes are
interactive-component runtime, the thing the elision check scans for). -/
structure Script where
  name : String
  bytes : Bytes
  isInteractiveRuntime : Bool
deriving DecidableEq, Repr

/-- Modelled from the spec: the Vercel Analytics module injected by the
layout head (PLAN.md section 8); it is not interactive-component runtime. -/
def analyticsScript : Script :=
  { name := "vercel-analytics"
    bytes := [105, 110, 106, 101, 99, 116]
    isInteractiveRuntime := false }

/-- Modelled from the spec: the island runtime bundle shipped for a section
that opts into interactivity. -/
def islandRuntime (s : SectionNode) : Script :=
  { name := "island-" ++ sectionId s.kind
    bytes := [82, 84, 0]
    isInteractiveRuntime := true }

/-- Modelled from the spec: the script bundles of a build: the layout's
analytics module always, plus one island runtime per section whose
interactivity flag is set. -/
def emittedScripts (sections : List SectionNode) : List Script :=
  analyticsScript ::
    (sections.filter (fun s => s.interactivityEnabled)).map islandRuntime

/-- Total number of interactive-component runtime bytes in a set of script
bundles. -/
def interactiveRuntimeBytes (scripts : List Script) : Nat :=
  ((scripts.filter (fun s => s.isInteractiveRuntime)).map
    (fun s => s.bytes.length)).sum

/-- Modelled from the spec: the post-emission Runtime Elision Check: fails
with UnexpectedRuntime exactly when interactive-runtime bytes are present
while every SectionNode has interactivityEnabled = false. -/
def elisionCheck (sections : List SectionNode) (scripts : List Script) :
    Except BuildError Unit :=
  if 0 < interactiveRuntimeBytes scripts
      ∧ sections.all (fun s => ! s.interactivityEnabled) then
    .error .unexpectedRuntime
  else
    .ok ()

/-- Page metadata consumed by the layout; absent fields fall back to the
layout defaults of PLAN.md section 4. -/
structure PageMeta where
  title : Option String
  description : Option String
deriving DecidableEq, Repr

/-- Default page title of the layout (PLAN.md section 4). -/
def defaultTitle : String :=
  "Ser Livre Psicologia | Rhayane Miranda - Psicoterapia Online"

/-- Default page description of the layout (STUDY.md section 10). -/
def defaultDescription : String :=
  "Psicoterapia online com escuta sensivel, acolhedora e atenta as vivencias das mulheres. Rhayane Miranda, Psicologa Clinica CRP 01/28820."

/-- The fixed-path root icon files referenced by absolute path from the
document head (PLAN.md section 4 and section 7). -/
def fixedIconPaths : List String :=
  ["/icon-light-32x32.png", "/icon-dark-32x32.png", "/icon.svg",
    "/apple-icon.png"]

/-- The document head produced by the shared layout. -/
structure DocHead where
  htmlLang : String
  title : String
  description : String
  themeColor : String
  icons : List String
  scripts : List Script
deriving DecidableEq, Repr

/-- Modelled from the spec: the shared layout head: metadata passed through
unmodified (falling back to the defaults), fixed icon links, and the
unconditionally injected analytics module. -/
def mkHead (m : PageMeta) : DocHead :=
  { htmlLang := "pt-BR"
    title := m.title.getD defaultTitle
    description := m.description.getD defaultDescription
    themeColor := "#F5F0EB"
    icons := fixedIconPaths
    scripts := [analyticsScript] }

/-- A resolved section rendered into the document tree. -/
structure RenderedSection where
  kind : SectionKind
  htmlId : String
  landmark : Bool
  props : List (String × String)
deriving DecidableEq, Repr

/-- Modelled from the spec: render one section into its document subtree;
rendering is a pure per-section function. -/
def render (s : SectionNode) : RenderedSection :=
  { kind := s.kind
    htmlId := sectionId s.kind
    landmark := isLandmark s.kind
    props := s.props }

/-- A node of the composed document body: the skip-navigation anchor or a
rendered section. -/
inductive BodyNode where
  | anchor (target : String)
  | sec (r : RenderedSection)
deriving DecidableEq, Repr

/-- Whether a body node is the skip-navigation anchor. -/
def isAnchor : BodyNode → Bool
  | .anchor _ => true
  | .sec _ => false

/-- Modelled from the spec: the skip-link target: the html id of the first
landmark-bearing section of the declared list (with the canonical main
content id as fallback for a page with no landmark). -/
def skipTarget (sections : List SectionNode) : String :=
  match sections.find? (fun s => isLandmark s.kind) with
  | some s => sectionId s.kind
  | none => "conteudo-principal"

/-- The composed entry document: head plus body node list. -/
structure Document where
  head : DocHead
  body : List BodyNode
deriving DecidableEq, Repr

/-- Modelled from the spec: the Component Composer: one shared shell (head),
one skip-navigation anchor immediately before the composed body content, and
the rendered sections strictly in declared order. -/
def compose (m : PageMeta) (sections : List SectionNode) : Document :=
  { head := mkHead m
    body :=
      .anchor (skipTarget sections)
        :: sections.map (fun s => .sec (render s)) }

/-- Project a body node to its rendered section, if it is one. -/
def secOf : BodyNode → Option RenderedSection
  | .sec r => some r
  | .anchor _ => none

/-- Project a body node to its anchor target, if it is an anchor. -/
def tgtOf : BodyNode → Option String
  | .anchor t => some t
  | .sec _ => none

/-- The rendered sections of a document, in document order. -/
def sectionsOf (d : Document) : List RenderedSection :=
  d.body.filterMap secOf

/-- The targets of the skip-navigation anchors of a document, in document
order. -/
def anchorTargets (d : Document) : List String :=
  d.body.filterMap tgtOf

/-- Apply an index permutation (given as a list of positions) to a list. -/
def permute {α : Type} (σ : List Nat) (l : List α) : List α :=
  σ.filterMap (fun i => l[i]?)

/-! ## Static Emission -/

/-- A fixed-path root file (icon files served from the public root). -/
structure FixedRootFile where
  name : String
  bytes : Bytes
deriving DecidableEq, Repr

/-- An emitted output artifact: logical path, content hash, bytes. -/
structure OutputArtifact where
  logicalPath : String
  contentHash : Nat
  bytes : Bytes
deriving DecidableEq, Repr

/-- Modelled from the spec: a fixed-path root file is emitted unchanged at
its stable absolute path; no hash component ever enters its name. -/
def fixedArtifact (f : FixedRootFile) : OutputArtifact :=
  { logicalPath := "/" ++ f.name
    contentHash := contentHash f.bytes
    bytes := f.bytes }

/-- The content-hashed logical path of a hashed bundle artifact. -/
def hashedPath (base : String) (h : Nat) (ext : String) : String :=
  "/_astro/" ++ base ++ "." ++ toString h ++ ext

/-- Modelled from the spec: a content-hashed bundle artifact: its filename
carries the digest of its bytes. -/
def hashedArtifact (base ext : String) (b : Bytes) : OutputArtifact :=
  { logicalPath := hashedPath base (contentHash b) ext
    contentHash := contentHash b
    bytes := b }

/-- Numeric code of a section kind used by document serialization. -/
def SectionKind.code : SectionKind → Nat
  | .header => 0
  | .hero => 1
  | .forWhom => 2
  | .about => 3
  | .approach => 4
  | .howItWorks => 5
  | .cta => 6
  | .footer => 7

/-- Byte encoding of a string. -/
def strBytes (s : String) : Bytes :=
  s.data.map Char.toNat

/-- Serialization of one body node. -/
def nodeBytes : BodyNode → Bytes
  | .anchor t => 1 :: strBytes t
  | .sec r => 2 :: r.kind.code :: strBytes r.htmlId

/-- Modelled from the spec: deterministic serialization of the composed
document into entry-document bytes. -/
def serializeDoc (d : Document) : Bytes :=
  strBytes d.head.title ++ 0 :: strBytes d.head.description
    ++ 0 :: d.body.flatMap nodeBytes

/-! ## The full build -/

/-- The complete input of one build: section declarations, image usage
sites, encoding parameters, fonts, stylesheet and fixed root files. -/
structure BuildInput where
  meta : PageMeta
  sections : List SectionNode
  imageUsages : List (SourceImage × Nat)
  formats : List ImgFormat
  fonts : List FontFamilySpec
  stylesheet : Bytes
  fixedFiles : List FixedRootFile
deriving DecidableEq, Repr

/-- An independent transcoding work unit: one (source, width, format). -/
structure WorkUnit where
  img : SourceImage
  width : Nat
  fmt : ImgFormat
deriving DecidableEq, Repr

/-- Modelled from the spec: the canonical transcoding work queue of a build:
usage sites deduplicated by (parentHash, width), crossed with the target
format set. -/
def workQueue (input : BuildInput) : List WorkUnit :=
  (dedupBy usageKey input.imageUsages).flatMap
    (fun u => input.formats.map (fun fmt => ⟨u.1, u.2, fmt⟩))

/-- Process one transcoding work unit into its staged output artifact. -/
def doUnit (u : WorkUnit) : OutputArtifact :=
  { logicalPath := (transcode u.img u.width u.fmt).outputPath
    contentHash := (transcode u.img u.width u.fmt).contentHash
    bytes := encodeImage u.img u.width u.fmt }

/-- The entry document artifact of a build. -/
def entryArtifact (input : BuildInput) : OutputArtifact :=
  { logicalPath := "/index.html"
    contentHash := contentHash (serializeDoc (compose input.meta input.sections))
    bytes := serializeDoc (compose input.meta input.sections) }

/-- The hashed stylesheet bundle artifact of a build. -/
def styleArtifact (input : BuildInput) : OutputArtifact :=
  hashedArtifact "styles" ".css" input.stylesheet

/-- The hashed script bundle artifacts of a build. -/
def scriptArtifacts (input : BuildInput) : List OutputArtifact :=
  (emittedScripts input.sections).map (fun s => hashedArtifact s.name ".js" s.bytes)

/-- The hashed font binary artifacts of a build. -/
def fontArtifacts (input : BuildInput) : List OutputArtifact :=
  input.fonts.flatMap (fun fam =>
    fam.sources.map (fun s =>
      hashedArtifact ("font-" ++ fam.family) ".woff2" s.fileBytes))

/-- Modelled from the spec: the OutputArtifact set of one build run whose
bounded worker pool claimed the transcoding units in the given order; the
staging area is content-keyed and write-once, so the artifact set is
accumulated as a set, not as a completion-ordered list. -/
def buildArtifacts (input : BuildInput) (order : List WorkUnit) :
    Finset OutputArtifact :=
  (order.map doUnit).toFinset ∪
    ([entryArtifact input, styleArtifact input]
      ++ scriptArtifacts input ++ fontArtifacts input
      ++ input.fixedFiles.map fixedArtifact).toFinset

/-- Modelled from the spec: the full build on the canonical queue order. -/
def build (input : BuildInput) : Finset OutputArtifact :=
  buildArtifacts input (workQueue input)

/-! ## Sample inputs (concrete witnesses) -/

/-- A non-interactive section of the given kind. -/
def sampleSection (k : SectionKind) : SectionNode :=
  { kind := k
    props := []
    referencedAssets := []
    interactivityEnabled := false }

/-- The canonical eight declared sections, in page order, all
non-interactive. -/
def sampleSections : List SectionNode :=
  [sampleSection .header, sampleSection .hero, sampleSection .forWhom,
    sampleSection .about, sampleSection .approach, sampleSection .howItWorks,
    sampleSection .cta, sampleSection .footer]

/-- The brand logo source image. -/
def logoImg : SourceImage :=
  { path := "logo.png", bytes := [7, 7, 7], nativeWidth := 512,
    nativeHeight := 512 }

/-- The portrait source image. -/
def portraitImg : SourceImage :=
  { path := "portrait.jpg", bytes := [9, 9], nativeWidth := 300,
    nativeHeight := 400 }

/-- The logo referenced at widths 36, 320 and 32 by several sections (five
usage sites, three distinct widths). -/
def sampleUsages : List (SourceImage × Nat) :=
  [(logoImg, 36), (logoImg, 320), (logoImg, 32), (logoImg, 36),
    (logoImg, 32)]

/-- A normal-style weight-axis variable source. -/
def sampleNormalSource : FontSource :=
  { axisLo := 300, axisHi := 700, style := .normal, fileBytes := [1, 2] }

/-- A separate italic source of the same family. -/
def sampleItalicSource : FontSource :=
  { axisLo := 300, axisHi := 700, style := .italic, fileBytes := [3, 4] }

/-- A second family with a single weight-axis source. -/
def sampleSansSource : FontSource :=
  { axisLo := 300, axisHi := 700, style := .normal, fileBytes := [5, 6] }

/-- The Cormorant Garamond family: weight-axis source plus italic source. -/
def sampleSerifFamily : FontFamilySpec :=
  { family := "Cormorant Garamond"
    sources := [sampleNormalSource, sampleItalicSource] }

/-- The DM Sans family: one weight-axis source. -/
def sampleSansFamily : FontFamilySpec :=
  { family := "DM Sans", sources := [sampleSansSource] }

/-- A complete concrete build input. -/
def sampleInput : BuildInput :=
  { meta := { title := none, description := none }
    sections := sampleSections
    imageUsages := [(logoImg, 36), (logoImg, 32)]
    formats := [.webp]
    fonts := [sampleSerifFamily, sampleSansFamily]
    stylesheet := [11, 12]
    fixedFiles := [{ name := "icon.svg", bytes := [60, 62] }] }

/-- A script bundle list that does carry interactive runtime bytes. -/
def sampleBadScripts : List Script :=
  [analyticsScript, islandRuntime (sampleSection .hero)]

/-! ## Claim theorems -/

/-- C7: the Image Transcoder never upscales: for every source image and
every requested width strictly larger than the native width, the emitted
variant keeps the unmodified original dimensions, never larger. -/
theorem transcode_never_upscales (img : SourceImage) (w : Nat)
    (fmt : ImgFormat) (h : img.nativeWidth < w) :
    (transcode img w fmt).emittedWidth = img.nativeWidth ∧
      (transcode img w fmt).emittedHeight = img.nativeHeight := by
  constructor
  · simp only [transcode, variantWidth]
    exact Nat.min_eq_right (Nat.le_of_lt h)
  · simp only [transcode, variantHeight]
    rw [if_pos (Nat.le_of_lt h)]

/-- Witness for C7: the portrait (native 300 x 400) requested at width 384
is emitted at 300 x 400. -/
theorem transcode_never_upscales_witness :
    (transcode portraitImg 384 ImgFormat.webp).emittedWidth
        = portraitImg.nativeWidth ∧
      (transcode portraitImg 384 ImgFormat.webp).emittedHeight
        = portraitImg.nativeHeight :=
  transcode_never_upscales portraitImg 384 ImgFormat.webp (by decide)

/-- C9: supplied title and description metadata pass through to the head of
the composed entry document unmodified. -/
theorem metadata_passthrough (t d : String) (sections : List SectionNode) :
    (compose { title := some t, description := some d } sections).head.title
        = t ∧
      (compose { title := some t, description := some d }
        sections).head.description = d :=
  ⟨rfl, rfl⟩

/-- C10: the layout unconditionally injects the Vercel Analytics module into
the document head of every build, a non-zero script payload, whatever the
sections' interactivity flags are. -/
theorem analytics_always_injected (m : PageMeta)
    (sections : List SectionNode) :
    analyticsScript ∈ (compose m sections).head.scripts ∧
      analyticsScript ∈ emittedScripts sections ∧
      0 < analyticsScript.bytes.length ∧
      0 < ((emittedScripts sections).map (fun s => s.bytes.length)).sum := by
  refine ⟨?_, ?_, ?_, ?_⟩
  · simp [compose, mkHead]
  · simp [emittedScripts]
  · decide
  · simp only [emittedScripts, List.map_cons, List.sum_cons]
    have : analyticsScript.bytes.length = 6 := by decide
    omega

/-- C6: a family with both a weight-axis variable source and a separate
italic source emits two distinct face entries, never merged; two declared
families of which one has an italic source yield exactly 3 face
declarations. -/
theorem italic_faces_never_merged (f g : FontFamilySpec)
    (s t u : FontSource) (hf : f.sources = [s, t])
    (hsn : s.style = FontStyle.normal) (hti : t.style = FontStyle.italic)
    (hg : g.sources = [u]) :
    packFamily f = [mkFace f.family s, mkFace f.family t] ∧
      mkFace f.family s ≠ mkFace f.family t ∧
      (packFonts [f, g]).length = 3 := by
  refine ⟨?_, ?_, ?_⟩
  · simp [packFamily, hf]
  · intro hc
    have hstyle := congrArg FontFace.style hc
    simp only [mkFace] at hstyle
    rw [hsn, hti] at hstyle
    exact FontStyle.noConfusion hstyle
  · simp [packFonts, packFamily, hf, hg]

/-- Witness for C6: the serif family (weight-axis plus italic sources) and
the sans family give exactly the two distinct serif faces plus one sans
face. -/
theorem italic_faces_never_merged_witness :
    packFamily sampleSerifFamily
        = [mkFace sampleSerifFamily.family sampleNormalSource,
            mkFace sampleSerifFamily.family sampleItalicSource] ∧
      mkFace sampleSerifFamily.family sampleNormalSource
        ≠ mkFace sampleSerifFamily.family sampleItalicSource ∧
      (packFonts [sampleSerifFamily, sampleSansFamily]).length = 3 :=
  italic_faces_never_merged sampleSerifFamily sampleSansFamily
    sampleNormalSource sampleItalicSource sampleSansSource
    (by decide) (by decide) (by decide) (by decide)

/-- C1: when every section's interactivity flag is off, the emitted script
bundles carry zero interactive-runtime bytes, and the Runtime Elision Check
fails with UnexpectedRuntime exactly when interactive-runtime bytes are
present while every flag is off. -/
theorem elision_guarantee (sections : List SectionNode)
    (scripts : List Script) :
    ((sections.all (fun s => ! s.interactivityEnabled)) = true →
        interactiveRuntimeBytes (emittedScripts sections) = 0) ∧
      (elisionCheck sections scripts
          = Except.error BuildError.unexpectedRuntime ↔
        (0 < interactiveRuntimeBytes scripts ∧
          (sections.all (fun s => ! s.interactivityEnabled)) = true)) := by
  constructor
  · intro hall
    have hfil : sections.filter (fun s => s.interactivityEnabled) = [] := by
      rw [List.filter_eq_nil_iff]
      intro a ha
      have hc := (List.all_eq_true.mp hall) a ha
      simp only [Bool.not_eq_true'] at hc
      simp [hc]
    simp [interactiveRuntimeBytes, emittedScripts, hfil, analyticsScript]
  · by_cases hc : 0 < interactiveRuntimeBytes scripts ∧
        (sections.all (fun s => ! s.interactivityEnabled)) = true
    · simp [elisionCheck, hc]
    · simp only [elisionCheck, if_neg hc]
      constructor
      · intro h
        exact absurd h (by simp)
      · intro h
        exact absurd h hc

/-- Witness for C1: on the eight canonical non-interactive sections the
emitted bundles carry zero interactive-runtime bytes, and scanning a bundle
list that does contain island runtime makes the check fail. -/
theorem elision_guarantee_witness :
    interactiveRuntimeBytes (emittedScripts sampleSections) = 0 ∧
      elisionCheck sampleSections sampleBadScripts
        = Except.error BuildError.unexpectedRuntime :=
  ⟨(elision_guarantee sampleSections sampleBadScripts).1 (by decide),
    (elision_guarantee sampleSections sampleBadScripts).2.mpr
      (by constructor <;> decide)⟩

/-- C8: a fixed-path root file is emitted unchanged at its stable absolute
logical path, with no hash component (its path does not depend on its
bytes), and it reaches the build output at that path, while style, script
and variant artifacts get content-hashed file names. -/
theorem fixed_root_files_stable (input : BuildInput) (f : FixedRootFile)
    (hf : f ∈ input.fixedFiles) (b2 : Bytes) (base ext : String) (b : Bytes)
    (u : WorkUnit) :
    (fixedArtifact f).logicalPath = "/" ++ f.name ∧
      (fixedArtifact f).bytes = f.bytes ∧
      (fixedArtifact { name := f.name, bytes := b2 }).logicalPath
        = (fixedArtifact f).logicalPath ∧
      fixedArtifact f ∈ build input ∧
      (hashedArtifact base ext b).logicalPath
        = "/_astro/" ++ base ++ "." ++ toString (contentHash b) ++ ext ∧
      (styleArtifact input).logicalPath
        = hashedPath "styles" (contentHash input.stylesheet) ".css" ∧
      (doUnit u).logicalPath
        = "/_astro/img-" ++ toString (contentHash u.img.bytes) ++ "-"
          ++ toString u.width ++ u.fmt.ext := by
  refine ⟨rfl, rfl, rfl, ?_, rfl, rfl, rfl⟩
  unfold build buildArtifacts
  apply Finset.mem_union_right
  rw [List.mem_toFinset]
  have hm : fixedArtifact f ∈ input.fixedFiles.map fixedArtifact :=
    List.mem_map_of_mem _ hf
  simp only [List.mem_append]
  tauto

/-- Witness for C8: the sample icon file lands in the sample build at the
stable path /icon.svg with its bytes unchanged. -/
theorem fixed_root_files_stable_witness :
    (fixedArtifact { name := "icon.svg", bytes := [60, 62] }).logicalPath
        = "/" ++ "icon.svg" ∧
      (fixedArtifact { name := "icon.svg", bytes := [60, 62] }).bytes
        = [60, 62] ∧
      (fixedArtifact { name := "icon.svg", bytes := [0] }).logicalPath
        = (fixedArtifact { name := "icon.svg", bytes := [60, 62] }).logicalPath ∧
      fixedArtifact { name := "icon.svg", bytes := [60, 62] }
        ∈ build sampleInput ∧
      (hashedArtifact "styles" ".css" [11, 12]).logicalPath
        = "/_astro/" ++ "styles" ++ "."
          ++ toString (contentHash [11, 12]) ++ ".css" ∧
      (styleArtifact sampleInput).logicalPath
        = hashedPath "styles" (contentHash sampleInput.stylesheet) ".css" ∧
      (doUnit { img := logoImg, width := 36, fmt := .webp }).logicalPath
        = "/_astro/img-" ++ toString (contentHash logoImg.bytes) ++ "-"
          ++ toString 36 ++ ImgFormat.webp.ext := by
  have h := fixed_root_files_stable sampleInput
    { name := "icon.svg", bytes := [60, 62] } (by decide) [0] "styles" ".css"
    [11, 12] { img := logoImg, width := 36, fmt := .webp }
  exact ⟨h.1, h.2.1, h.2.2.1, h.2.2.2.1, h.2.2.2.2.1, h.2.2.2.2.2.1,
    h.2.2.2.2.2.2⟩

/-- C2: the build is deterministic: on a fixed input, runs whose worker
pools claim the transcoding queue in any orders produce the same
OutputArtifact set, equal to the canonical build output. -/
theorem build_deterministic (input : BuildInput) (o₁ o₂ : List WorkUnit)
    (h₁ : o₁.Perm (workQueue input)) (h₂ : o₂.Perm (workQueue input)) :
    buildArtifacts input o₁ = buildArtifacts input o₂ ∧
      buildArtifacts input o₁ = build input := by
  have e : ∀ o : List WorkUnit, o.Perm (workQueue input) →
      buildArtifacts input o = build input := by
    intro o ho
    unfold build buildArtifacts
    rw [List.toFinset_eq_of_perm _ _ (ho.map doUnit)]
  exact ⟨(e o₁ h₁).trans (e o₂ h₂).symm, e o₁ h₁⟩

/-- Witness for C2: running the sample build with the transcoding queue
reversed yields exactly the canonical artifact set. -/
theorem build_deterministic_witness :
    buildArtifacts sampleInput (workQueue sampleInput).reverse
        = buildArtifacts sampleInput (workQueue sampleInput) ∧
      buildArtifacts sampleInput (workQueue sampleInput).reverse
        = build sampleInput :=
  build_deterministic sampleInput (workQueue sampleInput).reverse
    (workQueue sampleInput) (List.reverse_perm _) (List.Perm.refl _)

theorem permute_map {α β : Type} (σ : List Nat) (l : List α) (f : α → β) :
    permute σ (l.map f) = (permute σ l).map f := by
  simp only [permute, List.map_filterMap, List.getElem?_map]

theorem compose_sectionsOf (m : PageMeta) (l : List SectionNode) :
    sectionsOf (compose m l) = l.map render := by
  show (BodyNode.anchor (skipTarget l)
      :: l.map (fun s => BodyNode.sec (render s))).filterMap secOf
    = l.map render
  rw [List.filterMap_cons_none rfl, List.filterMap_map]
  exact congrFun (List.filterMap_eq_map render) l

/-- C4 (amended): the emitted section order equals the declared order;
permuting the declaration order permutes the rendered document body
identically and changes nothing else except the skip-navigation anchor
target, which is re-aimed at the new first landmark-bearing section (as the
shell's structural guarantee mandates); the shell head is unchanged. -/
theorem order_preservation (m : PageMeta) (l : List SectionNode)
    (σ : List Nat) :
    sectionsOf (compose m l) = l.map render ∧
      sectionsOf (compose m (permute σ l))
        = permute σ (sectionsOf (compose m l)) ∧
      (compose m (permute σ l)).head = (compose m l).head ∧
      (compose m (permute σ l)).body
        = BodyNode.anchor (skipTarget (permute σ l))
          :: permute σ ((compose m l).body.tail) := by
  refine ⟨compose_sectionsOf m l, ?_, rfl, ?_⟩
  · rw [compose_sectionsOf, compose_sectionsOf, permute_map]
  · show BodyNode.anchor (skipTarget (permute σ l))
        :: (permute σ l).map (fun s => BodyNode.sec (render s))
      = BodyNode.anchor (skipTarget (permute σ l))
        :: permute σ (l.map (fun s => BodyNode.sec (render s)))
    rw [permute_map]

/-- Counterexample for C4 as frozen ("changes nothing else"): swapping hero
and forWhom in the canonical eight-section declaration re-aims the skip
anchor from conteudo-principal to secao-para-quem, so the permuted document
differs beyond the pure reordering of its sections: its body is not the
original anchor followed by the permuted section nodes. -/
theorem order_preservation_counterexample :
    skipTarget (permute [0, 2, 1, 3, 4, 5, 6, 7] sampleSections)
        ≠ skipTarget sampleSections ∧
      (compose { title := none, description := none }
            (permute [0, 2, 1, 3, 4, 5, 6, 7] sampleSections)).body
        ≠ BodyNode.anchor (skipTarget sampleSections)
          :: permute [0, 2, 1, 3, 4, 5, 6, 7]
              ((compose { title := none, description := none }
                sampleSections).body.tail) := by
  decide

/-- C5: every composed page carries exactly one skip-navigation anchor,
placed immediately before the composed body content, and that anchor
targets the first landmark-bearing section of the page. -/
theorem skip_anchor_structural (m : PageMeta) (l : List SectionNode)
    (s0 : SectionNode)
    (hfind : l.find? (fun s => isLandmark s.kind) = some s0) :
    ((compose m l).body.filter isAnchor).length = 1 ∧
      (compose m l).body.head? = some (BodyNode.anchor (skipTarget l)) ∧
      (compose m l).body.tail = l.map (fun s => BodyNode.sec (render s)) ∧
      anchorTargets (compose m l) = [sectionId s0.kind] ∧
      (render s0).landmark = true ∧
      skipTarget l = sectionId s0.kind := by
  have htarget : skipTarget l = sectionId s0.kind := by
    unfold skipTarget
    rw [hfind]
  refine ⟨?_, rfl, rfl, ?_, ?_, htarget⟩
  · have hmap : (l.map (fun s => BodyNode.sec (render s))).filter isAnchor
        = [] := by
      rw [List.filter_eq_nil_iff]
      intro a ha
      rcases List.mem_map.mp ha with ⟨x, _, rfl⟩
      simp [isAnchor]
    show ((BodyNode.anchor (skipTarget l)
        :: l.map (fun s => BodyNode.sec (render s))).filter isAnchor).length
      = 1
    rw [List.filter_cons_of_pos (by rfl), hmap]
    rfl
  · have hnone : (l.map (fun s => BodyNode.sec (render s))).filterMap tgtOf
        = [] := by
      rw [List.filterMap_eq_nil_iff]
      intro a ha
      rcases List.mem_map.mp ha with ⟨x, _, rfl⟩
      rfl
    show (BodyNode.anchor (skipTarget l)
        :: l.map (fun s => BodyNode.sec (render s))).filterMap tgtOf
      = [sectionId s0.kind]
    rw [List.filterMap_cons_some
        (show tgtOf (BodyNode.anchor (skipTarget l)) = some (skipTarget l)
          from rfl),
      hnone, htarget]
  · have hp := List.find?_some hfind
    simp only [render]
    exact hp

theorem length_filter_flatMap {α β : Type} (l : List α) (g : α → List β)
    (p : β → Bool) :
    ((l.flatMap g).filter p).length
      = (l.map (fun a => ((g a).filter p).length)).sum := by
  induction l with
  | nil => simp
  | cons a as ih => simp [List.flatMap_cons, List.filter_append, ih]

theorem sum_map_one {α : Type} (l : List α) :
    (l.map (fun _ => 1)).sum = l.length := by
  induction l with
  | nil => rfl
  | cons a as ih => simp [ih, Nat.add_comm]

theorem length_filter_eq_of_nodup {α : Type} [DecidableEq α] :
    ∀ l : List α, ∀ x : α, l.Nodup → x ∈ l →
      (l.filter (fun y => y = x)).length = 1 := by
  intro l
  induction l with
  | nil => intro x _ hx; simp at hx
  | cons a as ih =>
    intro x hn hx
    rcases List.nodup_cons.mp hn with ⟨hna, hnas⟩
    by_cases ha : a = x
    · subst ha
      rw [List.filter_cons_of_pos (by simp)]
      have : as.filter (fun y => y = a) = [] := by
        rw [List.filter_eq_nil_iff]
        intro b hb hba
        have hba2 : b = a := by simpa using hba
        exact hna (hba2 ▸ hb)
      rw [this]
      rfl
    · have hxas : x ∈ as := by
        rcases List.mem_cons.mp hx with h | h
        · exact absurd h.symm ha
        · exact h
      rw [List.filter_cons_of_neg (by simp [ha])]
      exact ih x hnas hxas

theorem transcode_filter_format_length (u : SourceImage × Nat)
    (formats : List ImgFormat) (fmt : ImgFormat) (hf : formats.Nodup)
    (hmem : fmt ∈ formats) :
    ((formats.map (fun f2 => transcode u.1 u.2 f2)).filter
        (fun v => v.format = fmt)).length = 1 := by
  rw [List.filter_map, List.length_map]
  have hcomp : ((fun v : ImageVariant => decide (v.format = fmt))
        ∘ fun f2 => transcode u.1 u.2 f2)
      = fun f2 => decide (f2 = fmt) := rfl
  rw [hcomp]
  exact length_filter_eq_of_nodup formats fmt hf hmem

/-- C3: image variant deduplication is global: the emitted variant list has
pairwise-distinct (parentHash, width, format) triples, and for each enabled
format the number of emitted variants equals the number of distinct
(parentHash, width) usage keys, however many sections reference them. -/
theorem variant_dedup (usages : List (SourceImage × Nat))
    (formats : List ImgFormat) (fmt : ImgFormat) (hf : formats.Nodup)
    (hmem : fmt ∈ formats) :
    ((emitVariants usages formats).map tripleKey).Nodup ∧
      ((emitVariants usages formats).filter
          (fun v => v.format = fmt)).length
        = ((usages.map usageKey).toFinset).card := by
  constructor
  · rw [emitVariants, List.map_flatMap]
    have hrw : (fun u : SourceImage × Nat =>
          (formats.map (fun f2 => transcode u.1 u.2 f2)).map tripleKey)
        = fun u : SourceImage × Nat =>
            formats.map (fun f2 => (contentHash u.1.bytes, u.2, f2)) := by
      funext u
      rw [List.map_map]
      rfl
    rw [hrw, List.nodup_flatMap]
    constructor
    · intro u hu
      refine List.Nodup.map ?_ hf
      intro a b hab
      exact congrArg (fun t : Nat × Nat × ImgFormat => t.2.2) hab
    · have hkeys := dedupBy_keys_nodup usageKey usages
      rw [List.Nodup, List.pairwise_map] at hkeys
      refine hkeys.imp ?_
      intro a b hne
      intro x hxa hxb
      rcases List.mem_map.mp hxa with ⟨fa, _, rfl⟩
      rcases List.mem_map.mp hxb with ⟨fb, _, hfb⟩
      have h1 : contentHash b.1.bytes = contentHash a.1.bytes :=
        congrArg (fun t : Nat × Nat × ImgFormat => t.1) hfb
      have h2 : b.2 = a.2 :=
        congrArg (fun t : Nat × Nat × ImgFormat => t.2.1) hfb
      apply hne
      rw [usageKey, usageKey, h1, h2]
  · rw [emitVariants, length_filter_flatMap]
    rw [List.map_congr_left (fun u _ =>
      transcode_filter_format_length u formats fmt hf hmem)]
    rw [sum_map_one, dedupBy_length]

/-- Witness for C3: the logo referenced at widths 36, 320, 32, 36, 32 by
five usage sites yields variants with pairwise-distinct triples and exactly
3 webp variants. -/
theorem variant_dedup_witness :
    ((emitVariants sampleUsages [ImgFormat.webp, ImgFormat.avif]).map
        tripleKey).Nodup ∧
      ((emitVariants sampleUsages [ImgFormat.webp, ImgFormat.avif]).filter
          (fun v => v.format = ImgFormat.webp)).length = 3 :=
  ⟨(variant_dedup sampleUsages [ImgFormat.webp, ImgFormat.avif]
      ImgFormat.webp (by decide) (by decide)).1,
    ((variant_dedup sampleUsages [ImgFormat.webp, ImgFormat.avif]
      ImgFormat.webp (by decide) (by decide)).2).trans (by decide)⟩

/-- Witness for C5: on the canonical eight-section page the single anchor
immediately precedes the body and targets the hero section, the first
landmark-bearing one. -/
theorem skip_anchor_structural_witness :
    ((compose { title := none, description := none }
          sampleSections).body.filter isAnchor).length = 1 ∧
      (compose { title := none, description := none }
          sampleSections).body.head?
        = some (BodyNode.anchor (skipTarget sampleSections)) ∧
      (compose { title := none, description := none }
          sampleSections).body.tail
        = sampleSections.map (fun s => BodyNode.sec (render s)) ∧
      anchorTargets (compose { title := none, description := none }
          sampleSections)
        = [sectionId (sampleSection .hero).kind] ∧
      (render (sampleSection .hero)).landmark = true ∧
      skipTarget sampleSections = sectionId (sampleSection .hero).kind :=
  skip_anchor_structural { title := none, description := none }
    sampleSections (sampleSection .hero) (by decide)

end SerLivre
